import Mathlib

/-!
Verification development for the Steam games dataset pipeline
(`scripts/load_data.py`) and its MCP query server (`server.py`).

The Python code is shallowly embedded: the `games` table becomes a list of
`GameRow` records keyed by `app_id`; the MySQL statement
`INSERT ... ON DUPLICATE KEY UPDATE name, price, positive_reviews,
negative_reviews` becomes `upsert`; the row loop of `load_games` with its
per-row `try/except`, batch commits and error counter becomes the fold
`loadGames` over a `LoadState`; `populate_normalized_tables` becomes
`populateNormalized`; `parse_date`, `safe_int`, `safe_float` are embedded
over explicit models of Python values and of the `strptime` formats used.
-/

namespace Steam

/-- One row of the `games` table, with the column list of the `INSERT`
statement in `load_games` (`scripts/load_data.py`). `price` abstracts the
SQL decimal/Python float as a rational. -/
structure GameRow where
  app_id : Int
  name : Option String
  release_date : Option String
  release_year : Option Int
  estimated_owners : Option String
  peak_ccu : Int
  required_age : Int
  price : Rat
  discount : Int
  dlc_count : Int
  about_the_game : Option String
  supported_languages : Option String
  full_audio_languages : Option String
  reviews : Option String
  header_image : Option String
  website : Option String
  support_url : Option String
  support_email : Option String
  windows : Bool
  mac : Bool
  linux : Bool
  metacritic_score : Int
  metacritic_url : Option String
  user_score : Int
  positive_reviews : Int
  negative_reviews : Int
  score_rank : Option String
  achievements : Int
  recommendations : Int
  notes : Option String
  avg_playtime_forever : Int
  avg_playtime_2weeks : Int
  median_playtime_forever : Int
  median_playtime_2weeks : Int
  developers : Option String
  publishers : Option String
  categories : Option String
  genres : Option String
  tags : Option String
  screenshots : Option String
  movies : Option String
  deriving DecidableEq

/-- The natural keys (`app_id`) of the stored rows, in storage order. -/
def keys (t : List GameRow) : List Int := t.map (fun r => r.app_id)

/-- The `ON DUPLICATE KEY UPDATE` clause of the loader: overwrite exactly
`name`, `price`, `positive_reviews`, `negative_reviews` of a stored row
with the incoming row's values. -/
def updateDup (g r : GameRow) : GameRow :=
  { r with name := g.name, price := g.price,
           positive_reviews := g.positive_reviews,
           negative_reviews := g.negative_reviews }

/-- Modelled from the spec: `db/schema.sql` is not part of the sources;
per the spec the natural key `app_id` is unique in the Product table, so
`INSERT ... ON DUPLICATE KEY UPDATE` inserts a fresh row when the key is
absent and otherwise applies `updateDup` to the stored row(s) with that
key. -/
def upsert (t : List GameRow) (g : GameRow) : List GameRow :=
  if g.app_id ∈ keys t then
    t.map (fun r => if r.app_id = g.app_id then updateDup g r else r)
  else
    t ++ [g]

/-- One source row of the CSV, abstracted to what the loader loop observes:
either its `values` tuple is computed and `cursor.execute` succeeds
(`ok g`), or some step of the `try` block raises (`bad`) — a storage
error, constraint violation, or a coercion failure. A failed `execute`
leaves the table unchanged. -/
inductive SrcRow where
  | ok (g : GameRow)
  | bad
  deriving DecidableEq

def SrcRow.isOk : SrcRow → Bool
  | .ok _ => true
  | .bad => false

def SrcRow.isBad : SrcRow → Bool
  | .ok _ => false
  | .bad => true

/-- Effect of one loop iteration on the table alone. -/
def applyRow (t : List GameRow) : SrcRow → List GameRow
  | .ok g => upsert t g
  | .bad => t

/-- The table after the loader loop has processed `rows`. -/
def runRows (t : List GameRow) (rows : List SrcRow) : List GameRow :=
  rows.foldl applyRow t

/-- State threaded through the `load_games` loop: current table, last
committed snapshot, the `inserted` and `errors` counters, the number of
in-loop commits, and how many errors were printed in detail. -/
structure LoadState where
  db : List GameRow
  committedDb : List GameRow
  inserted : Nat
  errors : Nat
  loopCommits : Nat
  detailed : Nat
  deriving DecidableEq

/-- One iteration of the `for idx, row in df.iterrows()` loop: on success
execute the upsert, bump `inserted`, and commit when `inserted` is a
multiple of `batch_size`; on an exception bump `errors` and print detail
only while `errors <= 5`. -/
def loadStep (batchSize : Nat) (s : LoadState) : SrcRow → LoadState
  | .ok g =>
    let db := upsert s.db g
    let ins := s.inserted + 1
    if ins % batchSize = 0 then
      { s with db := db, inserted := ins, committedDb := db,
               loopCommits := s.loopCommits + 1 }
    else
      { s with db := db, inserted := ins }
  | .bad =>
    let e := s.errors + 1
    { s with errors := e,
             detailed := if e ≤ 5 then s.detailed + 1 else s.detailed }

/-- Initial state of a `load_games` call over a table `t`. -/
def initState (t : List GameRow) : LoadState :=
  { db := t, committedDb := t, inserted := 0, errors := 0,
    loopCommits := 0, detailed := 0 }

/-- `load_games(conn, csv, batch_size)`: fold the loop over the source
rows, then perform the final `conn.commit()`. -/
def loadGames (t : List GameRow) (rows : List SrcRow) (batchSize : Nat) :
    LoadState :=
  let s := rows.foldl (loadStep batchSize) (initState t)
  { s with committedDb := s.db }

/-! ## Relationship normalizer (`populate_normalized_tables`) -/

/-- Whitespace as stripped by `str.strip()` and matched by `\s`
(ASCII subset). -/
def pyWhitespace (c : Char) : Bool :=
  c == ' ' || c == '\t' || c == '\n' || c == '\r' || c.val == 11 || c.val == 12

/-- `str.strip()`. -/
def pyStrip (cs : List Char) : List Char :=
  ((cs.dropWhile pyWhitespace).reverse.dropWhile pyWhitespace).reverse

/-- `s.split(',')` on the character list: split at every comma, keeping
empty chunks (`''.split(',') == ['']`). -/
def splitCommaChars : List Char → List (List Char)
  | [] => [[]]
  | c :: rest =>
    if c = ',' then [] :: splitCommaChars rest
    else
      match splitCommaChars rest with
      | g :: gs => (c :: g) :: gs
      | [] => [[c]]

/-- Comma-split a list field, strip each token, drop empties — the
`for x in s.split(','): x = x.strip(); if x:` idiom of
`populate_normalized_tables`. -/
def splitTokens (s : String) : List String :=
  ((splitCommaChars s.toList).map (fun cs => (pyStrip cs).asString)).filter
    (fun tok => tok ≠ "")

/-- `SELECT DISTINCT <field> FROM games WHERE <field> IS NOT NULL AND
<field> != ''`: the distinct non-null, non-empty values of a list field
(dedup order is irrelevant to every claim below). -/
def distinctValues (field : GameRow → Option String)
    (games : List GameRow) : List String :=
  ((games.filterMap field).filter (fun s => s ≠ "")).dedup

/-- The Python `set` of labels accumulated from the distinct field values
(a Python set iterates in arbitrary order; the claims below depend only on
the elements). -/
def labelSet (vals : List String) : List String :=
  (vals.flatMap splitTokens).dedup

/-- `INSERT IGNORE INTO <lookup> (name) VALUES (%s)` with a unique key on
`name` (modelled from the spec: duplicate-label conflicts are ignored, so
an existing label is left alone). -/
def insertIgnore (l : List String) (x : String) : List String :=
  if x ∈ l then l else l ++ [x]

/-- `INSERT IGNORE INTO game_genres (game_id, genre_id) SELECT %s, id FROM
genres WHERE name = %s`: inserts the pair only when the label exists in
the lookup table, and (modelled from the spec: unique pair key) ignores a
duplicate pair. -/
def insertPair (lookup : List String) (j : List (Int × String))
    (p : Int × String) : List (Int × String) :=
  if p.2 ∈ lookup then (if p ∈ j then j else j ++ [p]) else j

/-- `SELECT app_id, <field> FROM games WHERE <field> IS NOT NULL`
followed by token expansion: the candidate (product, label) pairs of the
link pass, in row order. -/
def linkPairs (field : GameRow → Option String)
    (games : List GameRow) : List (Int × String) :=
  (games.filterMap (fun r => (field r).map (fun s => (r.app_id, s)))).flatMap
    (fun p => (splitTokens p.2).map (fun tok => (p.1, tok)))

/-- The normalized tables: genre lookup, game–genre junction, tag lookup,
game–tag junction. -/
structure NormState where
  genres : List String
  game_genres : List (Int × String)
  tags : List String
  game_tags : List (Int × String)
  deriving DecidableEq

/-- `populate_normalized_tables(conn)`: genre insert pass, genre link
pass, then the tag insert pass. The source contains no link pass for tags
(and no category pass at all): `game_tags` is never written. -/
def populateNormalized (games : List GameRow) (st : NormState) : NormState :=
  let gLabels := labelSet (distinctValues (fun r => r.genres) games)
  let genres1 := gLabels.foldl insertIgnore st.genres
  let gg1 := (linkPairs (fun r => r.genres) games).foldl
      (insertPair genres1) st.game_genres
  let tLabels := labelSet (distinctValues (fun r => r.tags) games)
  let tags1 := tLabels.foldl insertIgnore st.tags
  { genres := genres1, game_genres := gg1, tags := tags1,
    game_tags := st.game_tags }

/-- The pointwise effect of one source row on one stored row: an upsert
whose key is already present rewrites each stored row this way. -/
def rowKeyUpd : SrcRow → GameRow → GameRow
  | .ok g, r => if r.app_id = g.app_id then updateDup g r else r
  | .bad, r => r

/-- The pointwise effect of a whole source batch on one stored row. -/
def rowUpd (rows : List SrcRow) (r : GameRow) : GameRow :=
  rows.foldl (fun s row => rowKeyUpd row s) r

/-- A concrete stored row, for witnesses. -/
def sampleRow (a : Int) : GameRow :=
  { app_id := a, name := some "Game", release_date := some "2020-01-01",
    release_year := some 2020, estimated_owners := none, peak_ccu := 3,
    required_age := 0, price := 5, discount := 0, dlc_count := 1,
    about_the_game := none, supported_languages := none,
    full_audio_languages := none, reviews := none, header_image := none,
    website := none, support_url := none, support_email := none,
    windows := true, mac := false, linux := false, metacritic_score := 80,
    metacritic_url := none, user_score := 0, positive_reviews := 10,
    negative_reviews := 2, score_rank := none, achievements := 4,
    recommendations := 7, notes := none, avg_playtime_forever := 0,
    avg_playtime_2weeks := 0, median_playtime_forever := 0,
    median_playtime_2weeks := 0, developers := some "Dev",
    publishers := some "Pub", categories := some "Single-player",
    genres := some "Action, RPG, Action", tags := some "Action, RPG, Action",
    screenshots := none, movies := none }

/-- The C4 witness record: same natural key as `sampleRow 1`, changed
name, price and review counts, missing release date. -/
def newRow1 : GameRow :=
  { sampleRow 1 with
    name := some "New",
    price := 9,
    positive_reviews := 99,
    negative_reviews := 1,
    release_date := none,
    release_year := none }

/-! ## Date resolver (`parse_date`)

`datetime.strptime` is embedded for exactly the four formats the source
tries, following CPython's `_strptime`: a whitespace directive matches one
or more whitespace characters, month names match case-insensitively (no
name is a prefix of another, so ordered committed choice agrees with the
backtracking regex), `%Y` is exactly four digits, `%d` and `%m` follow
the one-or-two-digit regexes, and the parse fails unless the whole string
is consumed; `datetime`'s constructor then validates the day against the
month length and rejects year 0. Word characters for the `\b` boundaries
of the year regex are modelled over ASCII. -/

/-- Abbreviated month names (`%b`, C locale), with month numbers. -/
def monthAbbrevs : List (List Char × Nat) :=
  [("jan".toList, 1), ("feb".toList, 2), ("mar".toList, 3),
   ("apr".toList, 4), ("may".toList, 5), ("jun".toList, 6),
   ("jul".toList, 7), ("aug".toList, 8), ("sep".toList, 9),
   ("oct".toList, 10), ("nov".toList, 11), ("dec".toList, 12)]

/-- Full month names (`%B`, C locale), longest first as in `_strptime`'s
regex construction. -/
def monthFulls : List (List Char × Nat) :=
  [("september".toList, 9), ("february".toList, 2), ("november".toList, 11),
   ("december".toList, 12), ("january".toList, 1), ("october".toList, 10),
   ("august".toList, 8), ("march".toList, 3), ("april".toList, 4),
   ("june".toList, 6), ("july".toList, 7), ("may".toList, 5)]

/-- Match one name of the table as a case-insensitive prefix of the
input; return the month number and the rest of the input. -/
def matchMonthIn : List (List Char × Nat) → List Char →
    Option (Nat × List Char)
  | [], _ => none
  | (nm, m) :: rest, cs =>
    let pre := cs.take nm.length
    if pre.length = nm.length ∧ pre.map Char.toLower = nm then
      some (m, cs.drop nm.length)
    else
      matchMonthIn rest cs

/-- Digit value of an ASCII digit character. -/
def digitVal (c : Char) : Nat := c.toNat - 48

/-- `%d`: the regex `(3[01]|[12]\d|0[1-9]|[1-9])`. -/
def matchDay : List Char → Option (Nat × List Char)
  | c1 :: c2 :: rest =>
    if c1 = '3' ∧ (c2 = '0' ∨ c2 = '1') then some (30 + digitVal c2, rest)
    else if (c1 = '1' ∨ c1 = '2') ∧ c2.isDigit then
      some (digitVal c1 * 10 + digitVal c2, rest)
    else if c1 = '0' ∧ ('1' ≤ c2 ∧ c2 ≤ '9') then some (digitVal c2, rest)
    else if '1' ≤ c1 ∧ c1 ≤ '9' then some (digitVal c1, c2 :: rest)
    else none
  | [c1] =>
    if '1' ≤ c1 ∧ c1 ≤ '9' then some (digitVal c1, []) else none
  | [] => none

/-- `%m`: the regex `(1[0-2]|0[1-9]|[1-9])`. -/
def matchMonthNum : List Char → Option (Nat × List Char)
  | c1 :: c2 :: rest =>
    if c1 = '1' ∧ (c2 = '0' ∨ c2 = '1' ∨ c2 = '2') then
      some (10 + digitVal c2, rest)
    else if c1 = '0' ∧ ('1' ≤ c2 ∧ c2 ≤ '9') then some (digitVal c2, rest)
    else if '1' ≤ c1 ∧ c1 ≤ '9' then some (digitVal c1, c2 :: rest)
    else none
  | [c1] =>
    if '1' ≤ c1 ∧ c1 ≤ '9' then some (digitVal c1, []) else none
  | [] => none

/-- `%Y`: exactly four digits. -/
def matchYear4 : List Char → Option (Nat × List Char)
  | a :: b :: c :: d :: rest =>
    if a.isDigit ∧ b.isDigit ∧ c.isDigit ∧ d.isDigit then
      some (((digitVal a * 10 + digitVal b) * 10 + digitVal c) * 10 +
        digitVal d, rest)
    else none
  | _ => none

/-- A whitespace directive: one or more whitespace characters. -/
def matchWS (cs : List Char) : Option (List Char) :=
  match cs with
  | c :: rest => if pyWhitespace c then some (rest.dropWhile pyWhitespace)
                 else none
  | [] => none

/-- A literal character of the format. -/
def matchLit (c : Char) (cs : List Char) : Option (List Char) :=
  match cs with
  | x :: rest => if x = c then some rest else none
  | [] => none

/-- `"%b %d, %Y"`. -/
def parseFmt1 (cs : List Char) : Option (Nat × Nat × Nat) := do
  let (m, cs) ← matchMonthIn monthAbbrevs cs
  let cs ← matchWS cs
  let (d, cs) ← matchDay cs
  let cs ← matchLit ',' cs
  let cs ← matchWS cs
  let (y, cs) ← matchYear4 cs
  if cs = [] then pure (y, m, d) else none

/-- `"%B %d, %Y"`. -/
def parseFmt2 (cs : List Char) : Option (Nat × Nat × Nat) := do
  let (m, cs) ← matchMonthIn monthFulls cs
  let cs ← matchWS cs
  let (d, cs) ← matchDay cs
  let cs ← matchLit ',' cs
  let cs ← matchWS cs
  let (y, cs) ← matchYear4 cs
  if cs = [] then pure (y, m, d) else none

/-- `"%Y-%m-%d"`. -/
def parseFmt3 (cs : List Char) : Option (Nat × Nat × Nat) := do
  let (y, cs) ← matchYear4 cs
  let cs ← matchLit '-' cs
  let (m, cs) ← matchMonthNum cs
  let cs ← matchLit '-' cs
  let (d, cs) ← matchDay cs
  if cs = [] then pure (y, m, d) else none

/-- `"%d %b, %Y"`. -/
def parseFmt4 (cs : List Char) : Option (Nat × Nat × Nat) := do
  let (d, cs) ← matchDay cs
  let cs ← matchWS cs
  let (m, cs) ← matchMonthIn monthAbbrevs cs
  let cs ← matchLit ',' cs
  let cs ← matchWS cs
  let (y, cs) ← matchYear4 cs
  if cs = [] then pure (y, m, d) else none

/-- Gregorian leap year, as in `calendar`/`datetime`. -/
def isLeap (y : Nat) : Bool :=
  (y % 4 == 0 && y % 100 != 0) || y % 400 == 0

def daysInMonth (y m : Nat) : Nat :=
  if m = 2 then (if isLeap y then 29 else 28)
  else if m = 4 ∨ m = 6 ∨ m = 9 ∨ m = 11 then 30
  else 31

/-- The validation performed by the `datetime` constructor after a
successful regex match (`MINYEAR = 1`; day within the month). -/
def validDate (y m d : Nat) : Bool :=
  decide (1 ≤ y) && decide (d ≤ daysInMonth y m)

/-- One `datetime.strptime(date_str, fmt)` attempt: regex match plus
constructor validation; `none` is the `ValueError` the loop catches. -/
def tryFormat (p : List Char → Option (Nat × Nat × Nat)) (cs : List Char) :
    Option (Nat × Nat × Nat) :=
  match p cs with
  | some (y, m, d) => if validDate y m d then some (y, m, d) else none
  | none => none

/-- The `for fmt in formats` loop: first fully parsing format wins. -/
def tryFormats (cs : List Char) : Option (Nat × Nat × Nat) :=
  match tryFormat parseFmt1 cs with
  | some r => some r
  | none => match tryFormat parseFmt2 cs with
    | some r => some r
    | none => match tryFormat parseFmt3 cs with
      | some r => some r
      | none => tryFormat parseFmt4 cs

/-- Word characters for the `\b` boundaries of `re.search`
(ASCII subset of `\w`). -/
def isWordChar (c : Char) : Bool := c.isAlphanum || c == '_'

/-- `\b` holds before the current position: start of string or a
non-word previous character. -/
def boundaryBefore : Option Char → Bool
  | none => true
  | some p => ! isWordChar p

/-- `\b` holds after the matched token: end of string or a non-word next
character. -/
def boundaryAfter : List Char → Bool
  | [] => true
  | e :: _ => ! isWordChar e

/-- A match of `\b(19|20)\d{2}\b` starting at the current position, given
the previous character (if any). -/
def yearMatchHere (prev : Option Char) : List Char → Option Nat
  | a :: b :: c :: d :: rest =>
    if boundaryBefore prev ∧
       ((a = '1' ∧ b = '9') ∨ (a = '2' ∧ b = '0')) ∧
       c.isDigit ∧ d.isDigit ∧ boundaryAfter rest then
      some (((digitVal a * 10 + digitVal b) * 10 + digitVal c) * 10 +
        digitVal d)
    else none
  | _ => none

/-- `re.search(r'\b(19|20)\d{2}\b', s)`: leftmost match. -/
def searchYear (prev : Option Char) : List Char → Option Nat
  | [] => none
  | c :: rest =>
    match yearMatchHere prev (c :: rest) with
    | some y => some y
    | none => searchYear (some c) rest

/-- Two-digit zero padding, as `strftime`'s `%m`/`%d`. -/
def pad2 (n : Nat) : String :=
  if n < 10 then "0" ++ toString n else toString n

/-- `dt.strftime("%Y-%m-%d")` (and the `f"{year}-01-01"` of the fallback
tier): year as plain decimal, month and day zero-padded. -/
def dateString (y m d : Nat) : String :=
  toString y ++ "-" ++ pad2 m ++ "-" ++ pad2 d

/-- `parse_date` on the stripped, non-empty string. -/
def parseDateCore (cs : List Char) : Option String × Option Int :=
  match tryFormats cs with
  | some (y, m, d) => (some (dateString y m d), some (y : Int))
  | none =>
    match searchYear none cs with
    | some y => (some (dateString y 1 1), some (y : Int))
    | none => (none, none)

/-- `parse_date(date_str)`: a missing value (`pd.isna`) or a falsy (empty)
string yields `(None, None)`; otherwise the stripped string goes through
the format tier, then the year-search tier. -/
def parse_date (v : Option String) : Option String × Option Int :=
  match v with
  | none => (none, none)
  | some s => if s = "" then (none, none) else parseDateCore (pyStrip s.toList)

/-! ## Field coercers (`safe_int`, `safe_float`) over a model of Python
scalar values

Finite floats are carried as exact rationals (rounding of finite values is
abstracted away; it never affects control flow or exceptions). The IEEE
double overflow boundary `2^1024 - 2^970` is kept, because conversions
that overflow do change control flow: `float(huge_int)` raises
`OverflowError`, `float("1e999")` silently returns infinity, and
`int(inf)` raises `OverflowError`. Numeric strings are parsed by the usual
sign/mantissa/exponent grammar (digit-group underscores are not
modelled). -/

instance {ε α : Type} [DecidableEq ε] [DecidableEq α] :
    DecidableEq (Except ε α)
  | .ok a, .ok b =>
    if h : a = b then .isTrue (by rw [h])
    else .isFalse (by intro hc; exact h (Except.ok.inj hc))
  | .ok _, .error _ => .isFalse (by intro hc; cases hc)
  | .error _, .ok _ => .isFalse (by intro hc; cases hc)
  | .error e, .error f =>
    if h : e = f then .isTrue (by rw [h])
    else .isFalse (by intro hc; exact h (Except.error.inj hc))

inductive PFloat where
  | finite (q : Rat)
  | inf
  | ninf
  | nan
  deriving DecidableEq

/-- The Python scalar values the coercers can receive from a pandas row:
`None`, booleans, ints, floats, strings, and an opaque non-numeric object
(for which `float()` raises `TypeError`). -/
inductive Py where
  | vNone
  | vBool (b : Bool)
  | vInt (n : Int)
  | vFloat (f : PFloat)
  | vStr (s : String)
  | vObj
  deriving DecidableEq

inductive PyErr where
  | valueError
  | typeError
  | overflowError
  deriving DecidableEq

/-- `pd.isna` on a scalar: true exactly for `None` and float NaN. -/
def pdIsna : Py → Bool
  | .vNone => true
  | .vFloat .nan => true
  | _ => false

/-- Smallest magnitude at which a real value rounds to an infinite IEEE
double: `2^1024 - 2^970` (kept as an integer so comparisons stay in
integer arithmetic). -/
def ovflNum : Int := ((2 ^ 1024 - 2 ^ 970 : Nat) : Int)

/-- `n ≤ q` for an integer bound and a rational (the denominator is
positive, so cross-multiplying preserves the order). -/
def intLeRat (n : Int) (q : Rat) : Bool := n * (q.den : Int) ≤ q.num

/-- Digits of a numeric string chunk, as a natural number with its digit
count; `none` when a non-digit appears. Underscore grouping is not
modelled. -/
def readDigits : List Char → Nat → Nat → Option (Nat × Nat)
  | [], acc, len => if len = 0 then none else some (acc, len)
  | c :: rest, acc, len =>
    if c.isDigit then readDigits rest (acc * 10 + digitVal c) (len + 1)
    else none

/-- Split a list at the first occurrence of a character satisfying `p`. -/
def splitAtChar (p : Char → Bool) : List Char → (List Char × List Char)
  | [] => ([], [])
  | c :: rest =>
    if p c then ([], c :: rest)
    else
      let (l, r) := splitAtChar p rest
      (c :: l, r)

/-- Parse the unsigned decimal part `digits[.digits][e[sign]digits]` of a
Python float literal into an exact rational (numerator over a power of
ten, built with integer arithmetic only). -/
def parseDecimal (cs : List Char) : Option Rat :=
  let (mantPart, expPart) := splitAtChar (fun c => c = 'e' ∨ c = 'E') cs
  let (intPart, fracPart') := splitAtChar (fun c => c = '.') mantPart
  let fracPart := fracPart'.drop 1
  let hasDot := ¬ fracPart'.isEmpty
  let intDigits := readDigits intPart 0 0
  let fracDigits := readDigits fracPart 0 0
  let mant : Option (Nat × Nat) :=
    match intDigits, fracDigits with
    | some (i, _), some (f, fl) => some (i * 10 ^ fl + f, 10 ^ fl)
    | some (i, _), none => if hasDot ∧ fracPart ≠ [] then none
                           else some (i, 1)
    | none, some (f, fl) => if intPart = [] ∧ hasDot then some (f, 10 ^ fl)
                            else none
    | none, none => none
  match mant with
  | none => none
  | some (num, den) =>
    match expPart with
    | [] => some (mkRat (num : Int) den)
    | _ :: etail =>
      let (epos, edigs) :=
        match etail with
        | '+' :: t => (true, t)
        | '-' :: t => (false, t)
        | t => (true, t)
      match readDigits edigs 0 0 with
      | some (e, _) =>
        if epos then some (mkRat ((num * 10 ^ e : Nat) : Int) den)
        else some (mkRat (num : Int) (den * 10 ^ e))
      | none => none

/-- `float(s)` for a string: strip, optional sign, then `inf`/`infinity`/
`nan` (case-insensitive) or the decimal grammar; magnitudes beyond the
double range silently become infinite. Failure is `ValueError`. -/
def pyStrToFloat (s : String) : Except PyErr PFloat :=
  let cs := pyStrip s.toList
  let (sgn, body) :=
    match cs with
    | '+' :: t => ((1 : Int), t)
    | '-' :: t => ((-1 : Int), t)
    | t => ((1 : Int), t)
  let low := body.map Char.toLower
  if low = "inf".toList ∨ low = "infinity".toList then
    .ok (if sgn = 1 then .inf else .ninf)
  else if low = "nan".toList then .ok .nan
  else
    match parseDecimal low with
    | some q =>
      if intLeRat ovflNum q then .ok (if sgn = 1 then .inf else .ninf)
      else .ok (.finite (if sgn = 1 then q else Rat.neg q))
    | none => .error .valueError

/-- `float(value)`. `float` of an int beyond the double range raises
`OverflowError`; of a non-numeric object, `TypeError`. -/
def pyFloat : Py → Except PyErr PFloat
  | .vBool b => .ok (.finite (mkRat (if b then 1 else 0) 1))
  | .vInt n =>
    if ovflNum ≤ n ∨ n ≤ -ovflNum then
      .error .overflowError
    else .ok (.finite (mkRat n 1))
  | .vFloat f => .ok f
  | .vStr s => pyStrToFloat s
  | .vNone => .error .typeError
  | .vObj => .error .typeError

/-- Truncation toward zero, `int(float)` on a finite value. -/
def ratTrunc (q : Rat) : Int := q.num.tdiv (q.den : Int)

/-- `int(f)` for a float: truncate when finite, `OverflowError` on an
infinity, `ValueError` on NaN. -/
def pyIntOfFloat : PFloat → Except PyErr Int
  | .finite q => .ok (ratTrunc q)
  | .inf => .error .overflowError
  | .ninf => .error .overflowError
  | .nan => .error .valueError

/-- Result of `except (ValueError, TypeError): return default` applied to
an error: those two are converted to the default, anything else
propagates. -/
def catchVT {α : Type} (dflt : α) : PyErr → Except PyErr α
  | .valueError => .ok dflt
  | .typeError => .ok dflt
  | e => .error e

/-- `safe_int(value, default)`: `int(float(value))` under
`except (ValueError, TypeError)`. An uncaught exception surfaces as
`.error`. -/
def safe_int (value : Py) (dflt : Int) : Except PyErr Int :=
  if pdIsna value then .ok dflt
  else
    match pyFloat value with
    | .error e => catchVT dflt e
    | .ok f =>
      match pyIntOfFloat f with
      | .error e => catchVT dflt e
      | .ok n => .ok n

/-- `safe_float(value, default)`: `float(value)` under
`except (ValueError, TypeError)`. -/
def safe_float (value : Py) (dflt : PFloat) : Except PyErr PFloat :=
  if pdIsna value then .ok dflt
  else
    match pyFloat value with
    | .error e => catchVT dflt e
    | .ok f => .ok f

/-! ## Query server (`server.py`) -/

/-- Result of the `get_game_details` tool: the first matching row, or the
error dictionary. -/
inductive QueryResult where
  | found (r : GameRow)
  | errorDict (msg : String)
  deriving DecidableEq

/-- `get_game_details(app_id)`: `SELECT * FROM games WHERE app_id = %s`,
returning `results[0]` if any row matched and
`{"error": "Game not found"}` otherwise. -/
def get_game_details (t : List GameRow) (appId : Int) : QueryResult :=
  match t.filter (fun r => r.app_id = appId) with
  | [] => .errorDict "Game not found"
  | r :: _ => .found r

/-! ## Basic facts about the upsert and the loader loop -/

theorem updateDup_app_id (g r : GameRow) : (updateDup g r).app_id = r.app_id :=
  rfl

theorem updateDup_updateDup (g g' r : GameRow) :
    updateDup g (updateDup g' r) = updateDup g r := rfl

theorem updateDup_self (g : GameRow) : updateDup g g = g := rfl

theorem rowKeyUpd_app_id (row : SrcRow) (r : GameRow) :
    (rowKeyUpd row r).app_id = r.app_id := by
  cases row with
  | ok g => simp only [rowKeyUpd]; split <;> rfl
  | bad => rfl

theorem rowUpd_nil (r : GameRow) : rowUpd [] r = r := rfl

theorem rowUpd_cons (row : SrcRow) (rest : List SrcRow) (r : GameRow) :
    rowUpd (row :: rest) r = rowUpd rest (rowKeyUpd row r) := rfl

theorem rowUpd_app_id (rows : List SrcRow) (r : GameRow) :
    (rowUpd rows r).app_id = r.app_id := by
  induction rows generalizing r with
  | nil => rfl
  | cons row rest ih => rw [rowUpd_cons, ih, rowKeyUpd_app_id]

theorem updateDup_rowKeyUpd (g : GameRow) (row : SrcRow) (r : GameRow) :
    updateDup g (rowKeyUpd row r) = updateDup g r := by
  cases row with
  | ok g' => simp only [rowKeyUpd]; split <;> rfl
  | bad => rfl

theorem updateDup_rowUpd (g : GameRow) (rows : List SrcRow) (r : GameRow) :
    updateDup g (rowUpd rows r) = updateDup g r := by
  induction rows generalizing r with
  | nil => rfl
  | cons row rest ih => rw [rowUpd_cons, ih, updateDup_rowKeyUpd]

theorem mem_keys_of_mem {r : GameRow} {t : List GameRow} (hr : r ∈ t) :
    r.app_id ∈ keys t :=
  List.mem_map_of_mem _ hr

theorem keys_map_eq (t : List GameRow) (f : GameRow → GameRow)
    (h : ∀ r, (f r).app_id = r.app_id) : keys (t.map f) = keys t := by
  unfold keys
  rw [List.map_map]
  exact List.map_congr_left (fun r _ => h r)

theorem upsert_eq_map {t : List GameRow} {g : GameRow}
    (h : g.app_id ∈ keys t) : upsert t g = t.map (rowKeyUpd (.ok g)) := by
  unfold upsert
  rw [if_pos h]
  exact List.map_congr_left (fun r _ => rfl)

theorem keys_upsert_of_mem {t : List GameRow} {g : GameRow}
    (h : g.app_id ∈ keys t) : keys (upsert t g) = keys t := by
  rw [upsert_eq_map h]
  exact keys_map_eq _ _ (fun r => rowKeyUpd_app_id _ _)

theorem subset_keys_upsert (t : List GameRow) (g : GameRow) :
    keys t ⊆ keys (upsert t g) := by
  by_cases h : g.app_id ∈ keys t
  · rw [keys_upsert_of_mem h]
    exact fun a ha => ha
  · unfold upsert
    rw [if_neg h]
    unfold keys
    rw [List.map_append]
    exact List.subset_append_left _ _

theorem mem_keys_upsert_self (t : List GameRow) (g : GameRow) :
    g.app_id ∈ keys (upsert t g) := by
  by_cases h : g.app_id ∈ keys t
  · rw [keys_upsert_of_mem h]; exact h
  · unfold upsert
    rw [if_neg h]
    unfold keys
    rw [List.map_append]
    exact List.mem_append_right _ (by simp)

theorem runRows_nil (t : List GameRow) : runRows t [] = t := rfl

theorem runRows_cons (t : List GameRow) (row : SrcRow) (rest : List SrcRow) :
    runRows t (row :: rest) = runRows (applyRow t row) rest := rfl

theorem subset_keys_applyRow (t : List GameRow) (row : SrcRow) :
    keys t ⊆ keys (applyRow t row) := by
  cases row with
  | ok g => exact subset_keys_upsert t g
  | bad => exact fun a ha => ha

theorem subset_keys_runRows (t : List GameRow) (rows : List SrcRow) :
    keys t ⊆ keys (runRows t rows) := by
  induction rows generalizing t with
  | nil => exact fun a ha => ha
  | cons row rest ih =>
    exact fun a ha => ih (applyRow t row) (subset_keys_applyRow t row ha)

theorem mem_keys_runRows {g : GameRow} {rows : List SrcRow}
    (t : List GameRow) (h : SrcRow.ok g ∈ rows) :
    g.app_id ∈ keys (runRows t rows) := by
  induction rows generalizing t with
  | nil => cases h
  | cons row rest ih =>
    rcases List.mem_cons.mp h with h1 | h2
    · rw [runRows_cons, ← h1]
      exact subset_keys_runRows _ _ (mem_keys_upsert_self t g)
    · exact ih (applyRow t row) h2

theorem runRows_eq_map (rows : List SrcRow) (t : List GameRow)
    (h : ∀ g, SrcRow.ok g ∈ rows → g.app_id ∈ keys t) :
    runRows t rows = t.map (rowUpd rows) := by
  induction rows generalizing t with
  | nil =>
    exact ((List.map_congr_left (fun r _ => rfl)).trans (List.map_id t)).symm
  | cons row rest ih =>
    cases row with
    | bad =>
      rw [runRows_cons]
      show runRows t rest = t.map (rowUpd (SrcRow.bad :: rest))
      rw [ih t (fun g hg => h g (List.mem_cons_of_mem _ hg))]
      exact List.map_congr_left (fun r _ => rfl)
    | ok g =>
      have hk : g.app_id ∈ keys t := h g (List.mem_cons_self _ _)
      rw [runRows_cons]
      show runRows (upsert t g) rest = t.map (rowUpd (SrcRow.ok g :: rest))
      rw [upsert_eq_map hk]
      rw [ih (t.map (rowKeyUpd (.ok g))) (fun g' hg' => by
        rw [keys_map_eq _ _ (fun r => rowKeyUpd_app_id _ _)]
        exact h g' (List.mem_cons_of_mem _ hg'))]
      rw [List.map_map]
      exact List.map_congr_left (fun r _ => rfl)

theorem mem_upsert_elim (t : List GameRow) (g : GameRow) {r : GameRow}
    (hr : r ∈ upsert t g) :
    r = g ∨ ∃ r₀ ∈ t, r = rowKeyUpd (.ok g) r₀ := by
  by_cases h : g.app_id ∈ keys t
  · rw [upsert_eq_map h] at hr
    rcases List.mem_map.mp hr with ⟨r₀, hr₀, he⟩
    exact Or.inr ⟨r₀, hr₀, he.symm⟩
  · unfold upsert at hr
    rw [if_neg h] at hr
    rcases List.mem_append.mp hr with h1 | h2
    · refine Or.inr ⟨r, h1, ?_⟩
      have hne : ¬ r.app_id = g.app_id := fun he =>
        h (he ▸ mem_keys_of_mem h1)
      simp only [rowKeyUpd]
      rw [if_neg hne]
    · exact Or.inl (List.mem_singleton.mp h2)

theorem rowUpd_fix (rows : List SrcRow) :
    ∀ t r, r ∈ runRows t rows → rowUpd rows r = r := by
  induction rows using List.reverseRecOn with
  | nil => exact fun t r _ => rfl
  | append_singleton rs row ih =>
    intro t r hr
    rw [runRows, List.foldl_concat] at hr
    have hU : rowUpd (rs ++ [row]) r = rowKeyUpd row (rowUpd rs r) := by
      unfold rowUpd
      rw [List.foldl_concat]
    rw [hU]
    cases row with
    | bad =>
      simp only [applyRow] at hr
      rw [ih t r hr]
      rfl
    | ok g =>
      simp only [applyRow] at hr
      by_cases hk : r.app_id = g.app_id
      · have h1 : rowKeyUpd (.ok g) (rowUpd rs r) = updateDup g (rowUpd rs r) := by
          simp only [rowKeyUpd]
          rw [if_pos (by rw [rowUpd_app_id]; exact hk)]
        rw [h1, updateDup_rowUpd]
        rcases mem_upsert_elim _ _ hr with h2 | ⟨r₀, _, he⟩
        · rw [h2, updateDup_self]
        · by_cases hk0 : r₀.app_id = g.app_id
          · have h3 : r = updateDup g r₀ := by
              rw [he]; simp only [rowKeyUpd]; rw [if_pos hk0]
            rw [h3, updateDup_updateDup]
          · have h3 : r = r₀ := by
              rw [he]; simp only [rowKeyUpd]; rw [if_neg hk0]
            exact absurd (h3 ▸ hk) hk0
      · have h1 : rowKeyUpd (.ok g) (rowUpd rs r) = rowUpd rs r := by
          simp only [rowKeyUpd]
          rw [if_neg (by rw [rowUpd_app_id]; exact hk)]
        rw [h1]
        apply ih t
        rcases mem_upsert_elim _ _ hr with h2 | ⟨r₀, hr₀, he⟩
        · exact absurd (by rw [h2]) hk
        · by_cases hk0 : r₀.app_id = g.app_id
          · exfalso
            apply hk
            rw [he]
            simp only [rowKeyUpd]
            rw [if_pos hk0, updateDup_app_id]
            exact hk0
          · have h3 : r = r₀ := by
              rw [he]; simp only [rowKeyUpd]; rw [if_neg hk0]
            rw [h3]
            exact hr₀

theorem runRows_idem (t : List GameRow) (rows : List SrcRow) :
    runRows (runRows t rows) rows = runRows t rows := by
  have hmem : ∀ g, SrcRow.ok g ∈ rows → g.app_id ∈ keys (runRows t rows) :=
    fun g hg => mem_keys_runRows (t := t) hg
  rw [runRows_eq_map rows _ hmem]
  exact (List.map_congr_left (fun r hr => rowUpd_fix rows t r hr)).trans
    (List.map_id _)

/-! ## Projections of the loader loop state -/

theorem loadStep_db_ok (B : Nat) (s : LoadState) (g : GameRow) :
    (loadStep B s (.ok g)).db = upsert s.db g := by
  simp only [loadStep]
  split <;> rfl

theorem loadStep_errors_ok (B : Nat) (s : LoadState) (g : GameRow) :
    (loadStep B s (.ok g)).errors = s.errors := by
  simp only [loadStep]
  split <;> rfl

theorem loadStep_inserted_ok (B : Nat) (s : LoadState) (g : GameRow) :
    (loadStep B s (.ok g)).inserted = s.inserted + 1 := by
  simp only [loadStep]
  split <;> rfl

theorem loadFold_errors (B : Nat) (rows : List SrcRow) : ∀ s : LoadState,
    (rows.foldl (loadStep B) s).errors = s.errors + rows.countP SrcRow.isBad := by
  induction rows with
  | nil => intro s; rw [List.countP_nil]; rfl
  | cons row rest ih =>
    intro s
    rw [List.foldl_cons, ih, List.countP_cons]
    cases row with
    | ok g => simp [SrcRow.isBad, loadStep_errors_ok]
    | bad =>
      have h : (loadStep B s .bad).errors = s.errors + 1 := rfl
      simp [SrcRow.isBad, h]
      omega

theorem loadFold_inserted (B : Nat) (rows : List SrcRow) : ∀ s : LoadState,
    (rows.foldl (loadStep B) s).inserted = s.inserted + rows.countP SrcRow.isOk := by
  induction rows with
  | nil => intro s; rw [List.countP_nil]; rfl
  | cons row rest ih =>
    intro s
    rw [List.foldl_cons, ih, List.countP_cons]
    cases row with
    | ok g => simp [SrcRow.isOk, loadStep_inserted_ok]; omega
    | bad =>
      have h : (loadStep B s .bad).inserted = s.inserted := rfl
      simp [SrcRow.isOk, h]

theorem loadFold_db (B : Nat) (rows : List SrcRow) : ∀ s : LoadState,
    (rows.foldl (loadStep B) s).db = runRows s.db (rows.filter SrcRow.isOk) := by
  induction rows with
  | nil => intro s; rfl
  | cons row rest ih =>
    intro s
    rw [List.foldl_cons, ih]
    cases row with
    | ok g =>
      rw [List.filter_cons_of_pos (by rfl), runRows_cons]
      rw [loadStep_db_ok]
      rfl
    | bad =>
      rw [List.filter_cons_of_neg (by simp [SrcRow.isOk])]
      rfl

theorem loadFold_detailed (B : Nat) (rows : List SrcRow) : ∀ s : LoadState,
    s.detailed = min s.errors 5 →
    (rows.foldl (loadStep B) s).detailed =
      min (rows.foldl (loadStep B) s).errors 5 := by
  induction rows with
  | nil => intro s h; exact h
  | cons row rest ih =>
    intro s h
    rw [List.foldl_cons]
    apply ih
    cases row with
    | ok g =>
      show (loadStep B s (.ok g)).detailed = min (loadStep B s (.ok g)).errors 5
      simp only [loadStep]
      split <;> exact h
    | bad =>
      show (loadStep B s .bad).detailed = min (loadStep B s .bad).errors 5
      simp only [loadStep]
      rw [h]
      have h5 : min s.errors 5 = if s.errors ≤ 5 then s.errors else 5 :=
        Nat.min_def
      have h5' : min (s.errors + 1) 5 = if s.errors + 1 ≤ 5 then s.errors + 1 else 5 :=
        Nat.min_def
      split <;> omega

theorem loadFold_commits (B : Nat) (rows : List SrcRow) : ∀ s : LoadState,
    s.loopCommits = s.inserted / B →
    (rows.foldl (loadStep B) s).loopCommits =
      (rows.foldl (loadStep B) s).inserted / B := by
  induction rows with
  | nil => intro s h; exact h
  | cons row rest ih =>
    intro s h
    rw [List.foldl_cons]
    apply ih
    cases row with
    | bad => exact h
    | ok g =>
      show (loadStep B s (.ok g)).loopCommits = (loadStep B s (.ok g)).inserted / B
      simp only [loadStep]
      split
      · rename_i h1
        show s.loopCommits + 1 = (s.inserted + 1) / B
        rw [h, Nat.succ_div, if_pos (Nat.dvd_iff_mod_eq_zero.mpr h1)]
      · rename_i h1
        show s.loopCommits = (s.inserted + 1) / B
        rw [h, Nat.succ_div,
          if_neg (fun hd => h1 (Nat.dvd_iff_mod_eq_zero.mp hd))]
        rfl

theorem loadGames_db (t : List GameRow) (rows : List SrcRow) (B : Nat) :
    (loadGames t rows B).db = runRows t (rows.filter SrcRow.isOk) :=
  loadFold_db B rows (initState t)

theorem countP_ok_add_countP_bad (rows : List SrcRow) :
    rows.countP SrcRow.isOk + rows.countP SrcRow.isBad = rows.length := by
  induction rows with
  | nil => rfl
  | cons row rest ih =>
    rw [List.countP_cons, List.countP_cons]
    cases row with
    | ok g => simp [SrcRow.isOk, SrcRow.isBad]; omega
    | bad => simp [SrcRow.isOk, SrcRow.isBad]; omega

/-! ## Claim theorems -/

/-- C4: when the loader re-ingests a record `g` whose natural key already
exists in the table (as stored row `r`), the stored row becomes: `name`,
`price`, `positive_reviews`, `negative_reviews` from `g`, and every other
field — in particular the release date — kept from `r`; no key is added
or removed. -/
theorem upsert_update_scope (t : List GameRow) (g r : GameRow)
    (hr : r ∈ t) (hk : r.app_id = g.app_id) :
    ∃ r' ∈ upsert t g,
      r'.app_id = r.app_id ∧
      r'.name = g.name ∧
      r'.price = g.price ∧
      r'.positive_reviews = g.positive_reviews ∧
      r'.negative_reviews = g.negative_reviews ∧
      r'.release_date = r.release_date ∧
      r'.release_year = r.release_year ∧
      r'.estimated_owners = r.estimated_owners ∧
      r'.peak_ccu = r.peak_ccu ∧
      r'.required_age = r.required_age ∧
      r'.discount = r.discount ∧
      r'.dlc_count = r.dlc_count ∧
      r'.about_the_game = r.about_the_game ∧
      r'.supported_languages = r.supported_languages ∧
      r'.full_audio_languages = r.full_audio_languages ∧
      r'.reviews = r.reviews ∧
      r'.header_image = r.header_image ∧
      r'.website = r.website ∧
      r'.support_url = r.support_url ∧
      r'.support_email = r.support_email ∧
      r'.windows = r.windows ∧
      r'.mac = r.mac ∧
      r'.linux = r.linux ∧
      r'.metacritic_score = r.metacritic_score ∧
      r'.metacritic_url = r.metacritic_url ∧
      r'.user_score = r.user_score ∧
      r'.score_rank = r.score_rank ∧
      r'.achievements = r.achievements ∧
      r'.recommendations = r.recommendations ∧
      r'.notes = r.notes ∧
      r'.avg_playtime_forever = r.avg_playtime_forever ∧
      r'.avg_playtime_2weeks = r.avg_playtime_2weeks ∧
      r'.median_playtime_forever = r.median_playtime_forever ∧
      r'.median_playtime_2weeks = r.median_playtime_2weeks ∧
      r'.developers = r.developers ∧
      r'.publishers = r.publishers ∧
      r'.categories = r.categories ∧
      r'.genres = r.genres ∧
      r'.tags = r.tags ∧
      r'.screenshots = r.screenshots ∧
      r'.movies = r.movies ∧
      keys (upsert t g) = keys t := by
  have hmem : g.app_id ∈ keys t := hk ▸ mem_keys_of_mem hr
  refine ⟨updateDup g r, ?_, ?_⟩
  · rw [upsert_eq_map hmem]
    have he : rowKeyUpd (.ok g) r = updateDup g r := by
      simp only [rowKeyUpd]
      rw [if_pos hk]
    exact he ▸ List.mem_map_of_mem _ hr
  · exact ⟨rfl, rfl, rfl, rfl, rfl, rfl, rfl, rfl, rfl, rfl, rfl, rfl, rfl,
      rfl, rfl, rfl, rfl, rfl, rfl, rfl, rfl, rfl, rfl, rfl, rfl, rfl, rfl,
      rfl, rfl, rfl, rfl, rfl, rfl, rfl, rfl, rfl, rfl, rfl, rfl, rfl, rfl,
      keys_upsert_of_mem hmem⟩

/-- Witness for C4 at a concrete table: re-ingest key 1 with a new name,
price and review counts and a missing release date. -/
theorem upsert_update_scope_witness :
    (sampleRow 1) ∈ [sampleRow 1] ∧
    ∃ r' ∈ upsert [sampleRow 1] newRow1,
      r'.name = some "New" ∧ r'.price = 9 ∧
      r'.release_date = (sampleRow 1).release_date := by
  refine ⟨List.mem_singleton.mpr rfl, ?_⟩
  rcases upsert_update_scope [sampleRow 1] newRow1
      (sampleRow 1) (List.mem_singleton.mpr rfl) rfl with
    ⟨r', hmem, _, hname, hprice, _, _, hrd, _⟩
  exact ⟨r', hmem, hname, hprice, hrd⟩

/-- C5: running the bulk upsert loader a second time over an unchanged
source leaves the Product table exactly as after one run (hence the same
row count and the same mutable-field values), and no key ever present is
deleted by a run. -/
theorem loader_idempotent (t : List GameRow) (rows : List SrcRow) (B : Nat) :
    (loadGames (loadGames t rows B).db rows B).db = (loadGames t rows B).db ∧
    ∀ a ∈ keys t, a ∈ keys (loadGames t rows B).db := by
  simp only [loadGames_db]
  exact ⟨runRows_idem t _, fun a ha => subset_keys_runRows t _ ha⟩

/-- Witness for C5 at a concrete input. -/
theorem loader_idempotent_witness :
    (loadGames (loadGames [sampleRow 1] [.ok (sampleRow 2)] 500).db
        [.ok (sampleRow 2)] 500).db =
      (loadGames [sampleRow 1] [.ok (sampleRow 2)] 500).db ∧
    (1 : Int) ∈ keys (loadGames [sampleRow 1] [.ok (sampleRow 2)] 500).db := by
  have h := loader_idempotent [sampleRow 1] [.ok (sampleRow 2)] 500
  exact ⟨h.1, h.2 1 (by simp [keys, sampleRow])⟩

/-- C6: in a batch with exactly one failing row, the loader finishes the
loop, reports exactly one error, persists exactly the other rows (the
table is what processing the successful rows alone produces), and — the
error count being at most five — prints that one error in detail. -/
theorem load_error_isolation (t : List GameRow) (rows : List SrcRow)
    (B : Nat) (h : rows.countP SrcRow.isBad = 1) :
    (loadGames t rows B).errors = 1 ∧
    (loadGames t rows B).db = runRows t (rows.filter SrcRow.isOk) ∧
    (rows.filter SrcRow.isOk).length + 1 = rows.length ∧
    (loadGames t rows B).detailed = 1 := by
  have herr : (loadGames t rows B).errors = rows.countP SrcRow.isBad := by
    show (rows.foldl (loadStep B) (initState t)).errors = _
    rw [loadFold_errors]
    exact Nat.zero_add _
  refine ⟨herr.trans h, loadGames_db t rows B, ?_, ?_⟩
  · rw [← List.countP_eq_length_filter, ← h]
    exact countP_ok_add_countP_bad rows
  · have hd : (loadGames t rows B).detailed =
        min (loadGames t rows B).errors 5 := by
      show (rows.foldl (loadStep B) (initState t)).detailed = _
      exact loadFold_detailed B rows (initState t) (by simp [initState])
    rw [hd, herr, h]
    decide

/-- Witness for C6: three rows, the middle one failing. -/
theorem load_error_isolation_witness :
    (loadGames [] [.ok (sampleRow 1), .bad, .ok (sampleRow 2)] 500).errors = 1 ∧
    (loadGames [] [.ok (sampleRow 1), .bad, .ok (sampleRow 2)] 500).db =
      runRows []
        ([SrcRow.ok (sampleRow 1), .bad, .ok (sampleRow 2)].filter SrcRow.isOk) ∧
    (([SrcRow.ok (sampleRow 1), .bad,
        .ok (sampleRow 2)].filter SrcRow.isOk)).length + 1 = 3 ∧
    (loadGames [] [.ok (sampleRow 1), .bad, .ok (sampleRow 2)] 500).detailed = 1 :=
  load_error_isolation [] [.ok (sampleRow 1), .bad, .ok (sampleRow 2)] 500
    (by rfl)

/-- C8: over a whole run, the in-loop commits happen exactly once per
`batchSize` successful rows (failed rows do not advance the batch
counter), `inserted` reports exactly the successful rows, and the final
commit leaves the committed snapshot equal to the final table, covering
any partial trailing batch. -/
theorem load_batch_commits (t : List GameRow) (rows : List SrcRow) (B : Nat)
    (hB : 0 < B) :
    (loadGames t rows B).loopCommits = rows.countP SrcRow.isOk / B ∧
    (loadGames t rows B).inserted = rows.countP SrcRow.isOk ∧
    (loadGames t rows B).committedDb = (loadGames t rows B).db := by
  have hins : (loadGames t rows B).inserted = rows.countP SrcRow.isOk := by
    show (rows.foldl (loadStep B) (initState t)).inserted = _
    rw [loadFold_inserted]
    exact Nat.zero_add _
  refine ⟨?_, hins, rfl⟩
  have hc : (loadGames t rows B).loopCommits =
      (loadGames t rows B).inserted / B := by
    show (rows.foldl (loadStep B) (initState t)).loopCommits = _
    exact loadFold_commits B rows (initState t) ((Nat.zero_div B).symm)
  rw [hc, hins]

/-- Witness for C8: batch size 2 over three successful rows and one
failure commits once in the loop. -/
theorem load_batch_commits_witness :
    (loadGames [] [.ok (sampleRow 1), .bad, .ok (sampleRow 2),
        .ok (sampleRow 3)] 2).loopCommits =
      [SrcRow.ok (sampleRow 1), .bad, .ok (sampleRow 2),
        .ok (sampleRow 3)].countP SrcRow.isOk / 2 ∧
    (loadGames [] [.ok (sampleRow 1), .bad, .ok (sampleRow 2),
        .ok (sampleRow 3)] 2).inserted =
      [SrcRow.ok (sampleRow 1), .bad, .ok (sampleRow 2),
        .ok (sampleRow 3)].countP SrcRow.isOk ∧
    (loadGames [] [.ok (sampleRow 1), .bad, .ok (sampleRow 2),
        .ok (sampleRow 3)] 2).committedDb =
      (loadGames [] [.ok (sampleRow 1), .bad, .ok (sampleRow 2),
        .ok (sampleRow 3)] 2).db :=
  load_batch_commits [] _ 2 (by decide)

/-! ## Facts about the normalizer's ignore-on-conflict inserts -/

theorem insertIgnore_of_mem {l : List String} {x : String} (h : x ∈ l) :
    insertIgnore l x = l := by
  unfold insertIgnore
  rw [if_pos h]

theorem mem_insertIgnore {l : List String} {x : String} (y : String)
    (h : x ∈ l) : x ∈ insertIgnore l y := by
  unfold insertIgnore
  split
  · exact h
  · exact List.mem_append_left _ h

theorem mem_foldl_insertIgnore_of_mem (xs : List String) {l : List String}
    {x : String} (h : x ∈ l) : x ∈ xs.foldl insertIgnore l := by
  induction xs generalizing l with
  | nil => exact h
  | cons y ys ih => exact ih (mem_insertIgnore y h)

theorem mem_foldl_insertIgnore {xs : List String} (l : List String)
    {x : String} (h : x ∈ xs) : x ∈ xs.foldl insertIgnore l := by
  induction xs generalizing l with
  | nil => cases h
  | cons y ys ih =>
    rcases List.mem_cons.mp h with h1 | h2
    · subst h1
      rw [List.foldl_cons]
      apply mem_foldl_insertIgnore_of_mem
      unfold insertIgnore
      split
      · assumption
      · exact List.mem_append_right _ (List.mem_singleton.mpr rfl)
    · exact ih _ h2

theorem foldl_insertIgnore_id {xs : List String} {l : List String}
    (h : ∀ x ∈ xs, x ∈ l) : xs.foldl insertIgnore l = l := by
  induction xs with
  | nil => rfl
  | cons y ys ih =>
    rw [List.foldl_cons, insertIgnore_of_mem (h y (List.mem_cons_self _ _))]
    exact ih (fun x hx => h x (List.mem_cons_of_mem _ hx))

theorem insertPair_of_mem (L : List String) {j : List (Int × String)}
    {p : Int × String} (h : p.2 ∈ L → p ∈ j) : insertPair L j p = j := by
  unfold insertPair
  split
  · rename_i hL
    rw [if_pos (h hL)]
  · rfl

theorem mem_insertPair (L : List String) {j : List (Int × String)}
    {p : Int × String} (q : Int × String) (h : p ∈ j) :
    p ∈ insertPair L j q := by
  unfold insertPair
  split
  · split
    · exact h
    · exact List.mem_append_left _ h
  · exact h

theorem mem_foldl_insertPair_of_mem (L : List String)
    (ps : List (Int × String)) {j : List (Int × String)} {p : Int × String}
    (h : p ∈ j) : p ∈ ps.foldl (insertPair L) j := by
  induction ps generalizing j with
  | nil => exact h
  | cons q qs ih => exact ih (mem_insertPair L q h)

theorem mem_foldl_insertPair (L : List String) {ps : List (Int × String)}
    (j : List (Int × String)) {p : Int × String} (hp : p ∈ ps)
    (hL : p.2 ∈ L) : p ∈ ps.foldl (insertPair L) j := by
  induction ps generalizing j with
  | nil => cases hp
  | cons q qs ih =>
    rcases List.mem_cons.mp hp with h1 | h2
    · subst h1
      rw [List.foldl_cons]
      apply mem_foldl_insertPair_of_mem
      unfold insertPair
      rw [if_pos hL]
      split
      · assumption
      · exact List.mem_append_right _ (List.mem_singleton.mpr rfl)
    · exact ih _ h2

theorem foldl_insertPair_id (L : List String) {ps : List (Int × String)}
    {j : List (Int × String)} (h : ∀ p ∈ ps, p.2 ∈ L → p ∈ j) :
    ps.foldl (insertPair L) j = j := by
  induction ps with
  | nil => rfl
  | cons q qs ih =>
    rw [List.foldl_cons,
      insertPair_of_mem L (h q (List.mem_cons_self _ _))]
    exact ih (fun p hp => h p (List.mem_cons_of_mem _ hp))

/-- C7: running the relationship normalizer a second time over the same
loaded Product table changes nothing: no Lookup row and no Junction row is
added (every duplicate-label and duplicate-pair insert is ignored), from
any starting state of the normalized tables. -/
theorem normalizer_rerun_safe (games : List GameRow) (st : NormState) :
    populateNormalized games (populateNormalized games st) =
      populateNormalized games st := by
  simp only [populateNormalized]
  have hG : (labelSet (distinctValues (fun r => r.genres) games)).foldl
      insertIgnore
      ((labelSet (distinctValues (fun r => r.genres) games)).foldl
        insertIgnore st.genres) =
      (labelSet (distinctValues (fun r => r.genres) games)).foldl
        insertIgnore st.genres :=
    foldl_insertIgnore_id (fun x hx => mem_foldl_insertIgnore _ hx)
  have hT : (labelSet (distinctValues (fun r => r.tags) games)).foldl
      insertIgnore
      ((labelSet (distinctValues (fun r => r.tags) games)).foldl
        insertIgnore st.tags) =
      (labelSet (distinctValues (fun r => r.tags) games)).foldl
        insertIgnore st.tags :=
    foldl_insertIgnore_id (fun x hx => mem_foldl_insertIgnore _ hx)
  rw [hG, hT]
  have hJ : (linkPairs (fun r => r.genres) games).foldl
      (insertPair ((labelSet (distinctValues (fun r => r.genres) games)).foldl
        insertIgnore st.genres))
      ((linkPairs (fun r => r.genres) games).foldl
        (insertPair ((labelSet (distinctValues (fun r => r.genres) games)).foldl
          insertIgnore st.genres)) st.game_genres) =
      (linkPairs (fun r => r.genres) games).foldl
        (insertPair ((labelSet (distinctValues (fun r => r.genres) games)).foldl
          insertIgnore st.genres)) st.game_genres :=
    foldl_insertPair_id _ (fun p hp hL => mem_foldl_insertPair _ _ hp hL)
  rw [hJ]

/-- C1 is refuted on the code: for a product whose genre list and tag list
are both "Action, RPG, Action", the normalizer creates one "Action" and
one "RPG" Lookup row and exactly two Junction rows for the genre list, and
it creates the two tag Lookup rows — but `populate_normalized_tables` has
no link pass for tags (and none for categories), so the tag Junction table
stays empty instead of holding the two rows the claim requires. -/
theorem normalizer_tags_unlinked :
    (populateNormalized [sampleRow 1] ⟨[], [], [], []⟩).genres.count "Action" = 1 ∧
    (populateNormalized [sampleRow 1] ⟨[], [], [], []⟩).genres.count "RPG" = 1 ∧
    (populateNormalized [sampleRow 1] ⟨[], [], [], []⟩).genres.length = 2 ∧
    (populateNormalized [sampleRow 1] ⟨[], [], [], []⟩).game_genres =
      [(1, "Action"), (1, "RPG")] ∧
    (populateNormalized [sampleRow 1] ⟨[], [], [], []⟩).tags.count "Action" = 1 ∧
    (populateNormalized [sampleRow 1] ⟨[], [], [], []⟩).tags.count "RPG" = 1 ∧
    (populateNormalized [sampleRow 1] ⟨[], [], [], []⟩).game_tags = [] := by
  decide

set_option maxRecDepth 8000 in
/-- C2 is refuted on the code: the coercers catch only `ValueError` and
`TypeError`, but `int()` of an infinite float — reached via
`safe_int(float('inf'))`, `safe_int("inf")` or `safe_int("1e999")` — and
`float()` of an integer beyond the double range raise `OverflowError`,
which propagates. On the claim's other inputs (non-numeric strings,
missing values, NaN, opaque objects) the default is returned as
claimed. -/
theorem safe_coercers_overflow :
    safe_int (.vFloat .inf) 0 = .error .overflowError ∧
    safe_int (.vStr "inf") 0 = .error .overflowError ∧
    safe_int (.vStr "1e999") 0 = .error .overflowError ∧
    safe_float (.vInt (10 ^ 400)) (.finite 0) = .error .overflowError ∧
    safe_int (.vStr "not a number") 0 = .ok 0 ∧
    safe_int (.vStr "3.7") 0 = .ok 3 ∧
    safe_int (.vFloat .nan) 7 = .ok 7 ∧
    safe_int .vNone 0 = .ok 0 ∧
    safe_int .vObj 0 = .ok 0 ∧
    safe_float (.vStr "abc") (.finite 0) = .ok (.finite 0) := by
  refine ⟨by decide, by decide, ?_, by decide, by decide, by decide,
    by decide, by decide, by decide, by decide⟩
  decide

/-- C3: the two format-tier examples, the year-fallback example and the
total-failure example of the spec, plus the tier structure: a first
fully-parsing format wins and yields the canonical date and its year; if
no format parses, a found four-digit year token yields January 1st of
that year; with neither, the result is `(None, None)`. -/
theorem parse_date_tiers :
    parse_date (some "Oct 29, 2024") = (some "2024-10-29", some 2024) ∧
    parse_date (some "October 29, 2024") = (some "2024-10-29", some 2024) ∧
    parse_date (some "circa 2019 release") = (some "2019-01-01", some 2019) ∧
    parse_date (some "unknown") = (none, none) ∧
    (∀ s y m d, s ≠ "" → tryFormats (pyStrip s.toList) = some (y, m, d) →
      parse_date (some s) = (some (dateString y m d), some (y : Int))) ∧
    (∀ s y, s ≠ "" → tryFormats (pyStrip s.toList) = none →
      searchYear none (pyStrip s.toList) = some y →
      parse_date (some s) = (some (dateString y 1 1), some (y : Int))) ∧
    (∀ s, tryFormats (pyStrip s.toList) = none →
      searchYear none (pyStrip s.toList) = none →
      parse_date (some s) = (none, none)) := by
  refine ⟨by decide, by decide, by decide, by decide, ?_, ?_, ?_⟩
  · intro s y m d hne hf
    simp only [parse_date]
    rw [if_neg hne]
    unfold parseDateCore
    rw [hf]
  · intro s y hne hf hy
    simp only [parse_date]
    rw [if_neg hne]
    unfold parseDateCore
    rw [hf, hy]
  · intro s hf hy
    by_cases hs : s = ""
    · simp [parse_date, hs]
    · simp only [parse_date]
      rw [if_neg hs]
      unfold parseDateCore
      rw [hf, hy]

/-- Witness for the C3 tier statements at concrete inputs: the ISO format
tier and the two fallback tiers. -/
theorem parse_date_tiers_witness :
    parse_date (some "2024-05-06") = (some "2024-05-06", some 2024) ∧
    parse_date (some "about 1995!") = (some "1995-01-01", some 1995) ∧
    parse_date (some "n/a") = (none, none) :=
  ⟨parse_date_tiers.2.2.2.2.1 "2024-05-06" 2024 5 6 (by decide) (by decide),
   parse_date_tiers.2.2.2.2.2.1 "about 1995!" 1995 (by decide) (by decide)
     (by decide),
   parse_date_tiers.2.2.2.2.2.2 "n/a" (by decide) (by decide)⟩

/-- Helper for C9: every `parse_date` result is either the total failure
`(None, None)` or a canonical date string paired with its own year. -/
theorem parse_date_cases (v : Option String) :
    parse_date v = (none, none) ∨
    ∃ y m d : Nat, parse_date v = (some (dateString y m d), some (y : Int)) := by
  cases v with
  | none => exact Or.inl rfl
  | some s =>
    by_cases hs : s = ""
    · exact Or.inl (by simp [parse_date, hs])
    · have hcore : parse_date (some s) = parseDateCore (pyStrip s.toList) := by
        simp only [parse_date]
        rw [if_neg hs]
      rw [hcore]
      unfold parseDateCore
      cases htf : tryFormats (pyStrip s.toList) with
      | some r =>
        obtain ⟨y, m, d⟩ := r
        exact Or.inr ⟨y, m, d, rfl⟩
      | none =>
        cases hsy : searchYear none (pyStrip s.toList) with
        | some y => exact Or.inr ⟨y, 1, 1, rfl⟩
        | none => exact Or.inl rfl

/-- C9: the two components of a `parse_date` result are `None` together or
present together, and when present the returned year is exactly the year
component of the returned date string — the string is the year's decimal
digits, a dash, and the rest. -/
theorem parse_date_consistent (v : Option String) :
    ((parse_date v).1 = none ↔ (parse_date v).2 = none) ∧
    (∀ d y, parse_date v = (some d, some y) →
      0 ≤ y ∧ ∃ rest, d = toString y.toNat ++ "-" ++ rest) := by
  rcases parse_date_cases v with h | ⟨y, m, d, h⟩
  · rw [h]
    refine ⟨by simp, ?_⟩
    intro d' y' he
    rw [Prod.mk.injEq] at he
    exact absurd he.1 (by simp)
  · rw [h]
    refine ⟨by simp, ?_⟩
    intro d' y' he
    rw [Prod.mk.injEq] at he
    obtain ⟨h1, h2⟩ := he
    have hd : d' = dateString y m d := (Option.some.inj h1).symm
    have hy : y' = (y : Int) := (Option.some.inj h2).symm
    subst hd
    subst hy
    refine ⟨Int.natCast_nonneg y, pad2 m ++ "-" ++ pad2 d, ?_⟩
    rw [Int.toNat_natCast]
    simp [dateString, String.append_assoc]

/-- Witness for C9 at a concrete parsed date. -/
theorem parse_date_consistent_witness :
    ((parse_date (some "2020-07-15")).1 = none ↔
      (parse_date (some "2020-07-15")).2 = none) ∧
    (0 ≤ (2020 : Int) ∧
      ∃ rest, "2020-07-15" = toString (2020 : Int).toNat ++ "-" ++ rest) :=
  ⟨(parse_date_consistent (some "2020-07-15")).1,
   (parse_date_consistent (some "2020-07-15")).2 "2020-07-15" 2020 (by decide)⟩

/-- C10: `get_game_details` returns the error dictionary
`{"error": "Game not found"}` when no stored row has the requested
`app_id`, and the full stored record when one does (the key being unique
in the table). -/
theorem get_game_details_spec (t : List GameRow) (a : Int) :
    ((∀ r ∈ t, r.app_id ≠ a) →
      get_game_details t a = .errorDict "Game not found") ∧
    (∀ r, r ∈ t → r.app_id = a → (∀ r' ∈ t, r'.app_id = a → r' = r) →
      get_game_details t a = .found r) := by
  constructor
  · intro h
    unfold get_game_details
    have hnil : t.filter (fun r => r.app_id = a) = [] :=
      List.filter_eq_nil_iff.mpr (fun r hr => by simpa using h r hr)
    rw [hnil]
  · intro r hr hk huniq
    unfold get_game_details
    cases hf : t.filter (fun r => r.app_id = a) with
    | nil =>
      exfalso
      have : r ∈ t.filter (fun r => r.app_id = a) :=
        List.mem_filter.mpr ⟨hr, by simpa using hk⟩
      rw [hf] at this
      cases this
    | cons x xs =>
      have hx : x ∈ t.filter (fun r => r.app_id = a) :=
        hf ▸ List.mem_cons_self x xs
      have hx' := List.mem_filter.mp hx
      have hxr : x = r := huniq x hx'.1 (by simpa using hx'.2)
      rw [hxr]

/-- Witness for C10: a missing key yields the error dictionary, a present
key yields the stored record. -/
theorem get_game_details_spec_witness :
    get_game_details [sampleRow 1] 2 = .errorDict "Game not found" ∧
    get_game_details [sampleRow 1] 1 = .found (sampleRow 1) :=
  ⟨(get_game_details_spec [sampleRow 1] 2).1 (by decide),
   (get_game_details_spec [sampleRow 1] 1).2 (sampleRow 1)
     (List.mem_singleton.mpr rfl) rfl
     (fun r' hr' _ => List.mem_singleton.mp hr')⟩

end Steam
